import Mathlib

/-!
Verification development for the vocabulary / tokenization pipeline of
`src/data_utils.py` (the NeuroBot repository).

The Python module is embedded shallowly:

* Python strings are `String`, integers are `Nat` (all integers involved are
  non-negative sizes, counts and ids).
* A Python `dict` keyed by strings with integer values is an association list
  `List (String × Nat)` with insertion-order semantics: `dictInsert` overwrites
  an existing key in place (keeping its position in the iteration order, as
  CPython dicts do) and appends a fresh key at the end; `dictGet` is `dict.get`.
* The file system is an association list `FS` from paths to file contents,
  a file's contents being its list of lines (newline characters are not
  stored; `readlines` + `strip` from the source corresponds to `py_strip`
  applied to each stored line).
* Functions that perform I/O return `Except String FS` (the error string
  standing for the Python exception kind) paired, where relevant for the
  frame properties, with the list of input files actually read.
* The tokenizer `nltk.word_tokenize` is an external dependency, not code of
  this repository; following the specification it is treated as a pluggable
  capability and every embedded function takes it as an explicit argument
  `tok : String → List String`.
* Python's `sorted(_, key=k, reverse=True)` is a stable descending sort;
  it is embedded as the stable descending insertion sort `sortedDesc`.
-/

namespace DataUtils

/-- Source line 30: `_PAD = "_PAD"`. -/
def PAD : String := "_PAD"

/-- Source line 31: `_GO = "_GO"`. -/
def GO : String := "_GO"

/-- Source line 32: `_EOS = "_EOS"`. -/
def EOS : String := "_EOS"

/-- Source line 33: `_UNK = "_UNK"`. -/
def UNK : String := "_UNK"

/-- Source line 34: `_START_VOCAB = [_PAD, _GO, _EOS, _UNK]`. -/
def START_VOCAB : List String := [PAD, GO, EOS, UNK]

/-- Source line 36: `PAD_ID = 0`. -/
def PAD_ID : Nat := 0

/-- Source line 37: `GO_ID = 1`. -/
def GO_ID : Nat := 1

/-- Source line 38: `EOS_ID = 2`. -/
def EOS_ID : Nat := 2

/-- Source line 39: `UNK_ID = 3`. -/
def UNK_ID : Nat := 3

/-- Source line 83: `_DIGIT_RE.sub("0", w)` with `_DIGIT_RE = re.compile(r"\d")`:
every digit character of the token is replaced by the character `0`
(expressed on the character list so that it evaluates by kernel reduction). -/
def digit_sub (w : String) : String :=
  String.mk (w.data.map (fun c => if c.isDigit then '0' else c))

/-- Python `str.strip()` (source line 115): remove leading and trailing
whitespace, newline included. -/
def py_strip (s : String) : String :=
  String.mk (((s.data.dropWhile Char.isWhitespace).reverse.dropWhile
    Char.isWhitespace).reverse)

/-- CPython `dict` insertion: an existing key is overwritten in place (its
position in the iteration order is kept), a fresh key is appended at the end. -/
def dictInsert : List (String × Nat) → String → Nat → List (String × Nat)
  | [], k, v => [(k, v)]
  | (k2, v2) :: d, k, v =>
      if k2 = k then (k, v) :: d else (k2, v2) :: dictInsert d k v

/-- Python `dict.get k` / `k in dict`: value of the key if present. -/
def dictGet : List (String × Nat) → String → Option Nat
  | [], _ => none
  | (k2, v) :: d, k => if k2 = k then some v else dictGet d k

/-- Iteration order of a Python dict: its keys in insertion order. -/
def vocabKeys (d : List (String × Nat)) : List String := d.map Prod.fst

/-- `vocab.get` used as sort key on the dict's own keys (source line 88);
on a key of the dict it always returns the stored count. -/
def vocabGetD (d : List (String × Nat)) (w : String) : Nat :=
  (dictGet d w).getD 0

/-- Source lines 84-87: `if word in vocab: vocab[word] += 1 else: vocab[word] = 1`. -/
def bumpCount (d : List (String × Nat)) (w : String) : List (String × Nat) :=
  match dictGet d w with
  | some c => dictInsert d w (c + 1)
  | none => dictInsert d w 1

/-- Source lines 77-87: the corpus scan. For each line of the data file, the
line is tokenized and each token (digit-normalized when `normalize_digits`
is set, source line 83) bumps its frequency count. -/
def countVocab (tok : String → List String) (normalize_digits : Bool)
    (lines : List String) : List (String × Nat) :=
  lines.foldl
    (fun d line =>
      (tok line).foldl
        (fun d w => bumpCount d (if normalize_digits then digit_sub w else w)) d)
    []

/-- One step of the stable descending sort: insert `a` in front of the first
element whose key is ≤ its own (so earlier elements win ties). -/
def orderedInsertDesc (get : String → Nat) (a : String) : List String → List String
  | [] => [a]
  | b :: l => if get b ≤ get a then a :: b :: l else b :: orderedInsertDesc get a l

/-- Python's `sorted(_, key=get, reverse=True)` (source line 88): a stable sort
by descending key, elements with equal keys keeping their original order. -/
def sortedDesc (get : String → Nat) : List String → List String
  | [] => []
  | b :: l => orderedInsertDesc get b (sortedDesc get l)

/-- Source line 88: `vocab_list = _START_VOCAB + sorted(vocab, key=vocab.get, reverse=True)`
before the truncation step. -/
def full_vocab_list (tok : String → List String) (normalize_digits : Bool)
    (lines : List String) : List String :=
  START_VOCAB ++
    sortedDesc (vocabGetD (countVocab tok normalize_digits lines))
      (vocabKeys (countVocab tok normalize_digits lines))

/-- Source lines 88-90: the vocabulary list that `create_vocabulary` writes,
truncated to `max_vocabulary_size` when longer. -/
def vocab_list (tok : String → List String) (normalize_digits : Bool)
    (lines : List String) (max_vocabulary_size : Nat) : List String :=
  if (full_vocab_list tok normalize_digits lines).length > max_vocabulary_size then
    (full_vocab_list tok normalize_digits lines).take max_vocabulary_size
  else full_vocab_list tok normalize_digits lines

/-- The file system: paths mapped to file contents (lists of lines). -/
abbrev FS := List (String × List String)

/-- Contents of the file at a path, when one exists. -/
def fsGet : FS → String → Option (List String)
  | [], _ => none
  | (p, c) :: fs, q => if p = q then some c else fsGet fs q

/-- `os.path.exists`. -/
def fsExists (fs : FS) (p : String) : Bool := (fsGet fs p).isSome

/-- Writing a file: the new contents shadow any previous file at the path. -/
def fsWrite (fs : FS) (p : String) (c : List String) : FS := (p, c) :: fs

/-- Source lines 57-93, `create_vocabulary`: when no file exists at
`vocabulary_path`, scan the data file, build the frequency-ranked vocabulary
list and write it one token per line; otherwise do nothing. The second
component is the list of input files read (the frame/effect trace). -/
def create_vocabulary (tok : String → List String) (fs : FS)
    (vocabulary_path data_path : String) (max_vocabulary_size : Nat)
    (normalize_digits : Bool) : Except String FS × List String :=
  if fsExists fs vocabulary_path then (Except.ok fs, [])
  else
    match fsGet fs data_path with
    | none => (Except.error "IOError", [])
    | some lines =>
        (Except.ok
          (fsWrite fs vocabulary_path
            (vocab_list tok normalize_digits lines max_vocabulary_size)),
         [data_path])

/-- Python `enumerate` composed with the swap of source line 116:
`[(x, y) for (y, x) in enumerate(l)]`, starting at index `n`. -/
def enumPairsFrom (n : Nat) : List String → List (String × Nat)
  | [] => []
  | a :: l => (a, n) :: enumPairsFrom (n + 1) l

/-- Source line 116: `dict([(x, y) for (y, x) in enumerate(rev_vocab)])` —
the pairs are inserted in order, a later duplicate key overwriting an
earlier one. -/
def buildDict (ps : List (String × Nat)) : List (String × Nat) :=
  ps.foldl (fun d p => dictInsert d p.1 p.2) []

/-- Source lines 96-119, `initialize_vocabulary` (the name is spelt with an
`s` here): read the vocabulary file, strip each line, and return the forward
dict together with the reversed vocabulary list; `ValueError` when the file
does not exist. -/
def initialise_vocabulary (fs : FS) (vocabulary_path : String) :
    Except String (List (String × Nat) × List String) :=
  match fsGet fs vocabulary_path with
  | some fileLines =>
      let rev_vocab := fileLines.map py_strip
      Except.ok (buildDict (enumPairsFrom 0 rev_vocab), rev_vocab)
  | none => Except.error "ValueError"

/-- Source lines 122-137, `sentence_to_token_ids`: tokenize the sentence and
look every token up in the vocabulary, falling back to `UNK_ID`. Note that,
exactly as in the source, the `normalize_digits` argument is never used: the
digit-normalization step only survives as a comment below the `return`
statement (source line 138). -/
def sentence_to_token_ids (tok : String → List String) (sentence : String)
    (vocabulary : List (String × Nat)) (normalize_digits : Bool) : List Nat :=
  let words := tok sentence
  words.map (fun w => (dictGet vocabulary w).getD UNK_ID)

/-- Source lines 141-165, `data_to_token_ids`: when no file exists at
`target_path`, load the vocabulary, encode the data file line by line and
write one space-separated id line per input line; otherwise do nothing.
The second component lists the input files read. -/
def data_to_token_ids (tok : String → List String) (fs : FS)
    (data_path target_path vocabulary_path : String)
    (normalize_digits : Bool) : Except String FS × List String :=
  if fsExists fs target_path then (Except.ok fs, [])
  else
    match initialise_vocabulary fs vocabulary_path with
    | Except.error e => (Except.error e, [])
    | Except.ok (vocab, _) =>
        match fsGet fs data_path with
        | none => (Except.error "IOError", [vocabulary_path])
        | some lines =>
            (Except.ok
              (fsWrite fs target_path
                (lines.map (fun line =>
                  String.intercalate " "
                    ((sentence_to_token_ids tok line vocab normalize_digits).map
                      toString)))),
             [vocabulary_path, data_path])

/-- `os.path.join` for the cases arising here: an absolute second component
replaces the first, otherwise a single `/` separates the two parts. -/
def os_path_join (d f : String) : String :=
  if "/".data.isPrefixOf f.data then f
  else if d = "" then f
  else if "/".data.isSuffixOf d.data then d ++ f
  else d ++ "/" ++ f

/-- Source lines 46-49, `get_train_path`: join the directory with the fixed
base name `train` (used for the dev split as well). -/
def get_train_path (directory : String) : String :=
  os_path_join directory "train"

/-- Source lines 186-192: the four corpus paths derived by `prepare_wmt_data`,
in the order (from_train, to_train, from_dev, to_dev). Both `train_path` and
`dev_path` are `get_train_path data_dir`. -/
def prepare_wmt_corpus_paths (data_dir : String) :
    String × String × String × String :=
  let train_path := get_train_path data_dir
  let dev_path := get_train_path data_dir
  (train_path ++ ".en", train_path ++ ".fr", dev_path ++ ".en", dev_path ++ ".fr")

/-- Source lines 197-239, `prepare_data`: create both vocabularies, then
id-encode the two training files and the two dev files, skipping any step
whose output file already exists; returns the four encoded paths and the two
vocabulary paths. `create_vocabulary` and `data_to_token_ids` are called with
their default `normalize_digits=True`. -/
def prepare_data (tok : String → List String) (fs : FS)
    (data_dir from_train_path to_train_path from_dev_path to_dev_path : String)
    (from_vocabulary_size to_vocabulary_size : Nat) :
    Except String (FS × (String × String × String × String × String × String)) := do
  let to_vocab_path := os_path_join data_dir ("vocab" ++ toString to_vocabulary_size ++ ".to")
  let from_vocab_path := os_path_join data_dir ("vocab" ++ toString from_vocabulary_size ++ ".from")
  let fs1 ← (create_vocabulary tok fs to_vocab_path to_train_path to_vocabulary_size true).1
  let fs2 ← (create_vocabulary tok fs1 from_vocab_path from_train_path from_vocabulary_size true).1
  let to_train_ids_path := to_train_path ++ ".ids" ++ toString to_vocabulary_size
  let from_train_ids_path := from_train_path ++ ".ids" ++ toString from_vocabulary_size
  let fs3 ← (data_to_token_ids tok fs2 to_train_path to_train_ids_path to_vocab_path true).1
  let fs4 ← (data_to_token_ids tok fs3 from_train_path from_train_ids_path from_vocab_path true).1
  let to_dev_ids_path := to_dev_path ++ ".ids" ++ toString to_vocabulary_size
  let from_dev_ids_path := from_dev_path ++ ".ids" ++ toString from_vocabulary_size
  let fs5 ← (data_to_token_ids tok fs4 to_dev_path to_dev_ids_path to_vocab_path true).1
  let fs6 ← (data_to_token_ids tok fs5 from_dev_path from_dev_ids_path from_vocab_path true).1
  return (fs6, (from_train_ids_path, to_train_ids_path,
                from_dev_ids_path, to_dev_ids_path,
                from_vocab_path, to_vocab_path))

/-- Source lines 168-194, `prepare_wmt_data`: derive the four corpus paths
with the fixed suffixes `.en`/`.fr` and run `prepare_data` on them. -/
def prepare_wmt_data (tok : String → List String) (fs : FS) (data_dir : String)
    (en_vocabulary_size fr_vocabulary_size : Nat) :
    Except String (FS × (String × String × String × String × String × String)) :=
  let p := prepare_wmt_corpus_paths data_dir
  prepare_data tok fs data_dir p.1 p.2.1 p.2.2.1 p.2.2.2
    en_vocabulary_size fr_vocabulary_size

/-- Split a character list at spaces, accumulating the current (reversed)
token in the second argument. -/
def wsTokens : List Char → List Char → List String
  | [], acc => if acc.isEmpty then [] else [String.mk acc.reverse]
  | c :: cs, acc =>
      if c = ' ' then
        if acc.isEmpty then wsTokens cs []
        else String.mk acc.reverse :: wsTokens cs []
      else wsTokens cs (c :: acc)

/-- Modelled from the spec: the pluggable tokenizer capability, "splits a line
of text into an ordered sequence of token strings". The source delegates to
the external `nltk.word_tokenize`, which is not code of this repository; a
plain whitespace splitter serves as concrete instance for witnesses, while
the theorems quantify over an arbitrary tokenizer. -/
def ws_tokenize (s : String) : List String :=
  wsTokens s.data []

/-- The position of the last occurrence of `w` in `l`, when `w` occurs at all:
the specification of the overwrite semantics of the forward dict. -/
def lastIdx : List String → String → Option Nat
  | [], _ => none
  | a :: l, w =>
      match lastIdx l w with
      | some i => some (i + 1)
      | none => if a = w then some 0 else none

/-- The value of the last pair carrying the given key, if any. -/
def lookupLast : List (String × Nat) → String → Option Nat
  | [], _ => none
  | p :: ps, w =>
      match lookupLast ps w with
      | some v => some v
      | none => if p.1 = w then some p.2 else none

/-- The distinct elements of `ws`, in order of first occurrence. -/
def firstOccurrences (ws : List String) : List String :=
  ws.foldl (fun acc w => if w ∈ acc then acc else acc ++ [w]) []

/-- The token stream of the corpus scan of `create_vocabulary`: all tokens of
all lines in scan order, digit-normalized when requested (source lines 77-83). -/
def tokenStream (tok : String → List String) (normalize_digits : Bool)
    (lines : List String) : List String :=
  lines.flatMap
    (fun line => (tok line).map
      (fun w => if normalize_digits then digit_sub w else w))

/-! ## Helper lemmas -/

theorem full_vocab_list_take_four (tok : String → List String) (nd : Bool)
    (lines : List String) : (full_vocab_list tok nd lines).take 4 = START_VOCAB :=
  rfl

theorem vocab_list_take_four (tok : String → List String) (nd : Bool)
    (lines : List String) (maxv : Nat) (hmax : 4 ≤ maxv) :
    (vocab_list tok nd lines maxv).take 4 = START_VOCAB := by
  unfold vocab_list
  split
  · rw [List.take_take, Nat.min_eq_left hmax]
    exact full_vocab_list_take_four tok nd lines
  · exact full_vocab_list_take_four tok nd lines

theorem vocab_list_length_le (tok : String → List String) (nd : Bool)
    (lines : List String) (maxv : Nat) :
    (vocab_list tok nd lines maxv).length ≤ maxv := by
  unfold vocab_list
  split
  · rw [List.length_take]
    exact Nat.min_le_left _ _
  · omega

theorem vocab_list_no_trunc (tok : String → List String) (nd : Bool)
    (lines : List String) (maxv : Nat)
    (h : (full_vocab_list tok nd lines).length ≤ maxv) :
    vocab_list tok nd lines maxv = full_vocab_list tok nd lines := by
  unfold vocab_list
  rw [if_neg (by omega)]

theorem fsGet_fsWrite_self (fs : FS) (p : String) (c : List String) :
    fsGet (fsWrite fs p c) p = some c := by
  simp [fsGet, fsWrite]

theorem create_vocabulary_writes (tok : String → List String) (fs : FS)
    (vocabulary_path data_path : String) (maxv : Nat) (nd : Bool)
    (lines : List String)
    (hne : fsExists fs vocabulary_path = false)
    (hdata : fsGet fs data_path = some lines) :
    create_vocabulary tok fs vocabulary_path data_path maxv nd =
      (Except.ok (fsWrite fs vocabulary_path (vocab_list tok nd lines maxv)),
       [data_path]) := by
  simp [create_vocabulary, hne, hdata]

/-! ## Claim theorems -/

/-- C1: for every tokenizer, file system, data file and
`max_vocabulary_size ≥ 4`, the vocabulary list that `create_vocabulary`
writes begins with the four reserved symbols `_PAD, _GO, _EOS, _UNK` at ids
0, 1, 2, 3 in that fixed order, regardless of the corpus content. -/
theorem create_vocabulary_reserved_first (tok : String → List String) (fs : FS)
    (vocabulary_path data_path : String) (lines : List String) (maxv : Nat)
    (nd : Bool)
    (hne : fsExists fs vocabulary_path = false)
    (hdata : fsGet fs data_path = some lines)
    (hmax : 4 ≤ maxv) :
    ∃ fs2, (create_vocabulary tok fs vocabulary_path data_path maxv nd).1 =
        Except.ok fs2 ∧
      ∃ written, fsGet fs2 vocabulary_path = some written ∧
        written.take 4 = START_VOCAB := by
  refine ⟨fsWrite fs vocabulary_path (vocab_list tok nd lines maxv), ?_, ?_⟩
  · rw [create_vocabulary_writes tok fs vocabulary_path data_path maxv nd lines hne hdata]
  · exact ⟨vocab_list tok nd lines maxv, fsGet_fsWrite_self fs vocabulary_path _,
      vocab_list_take_four tok nd lines maxv hmax⟩

theorem create_vocabulary_reserved_first_witness :
    ∃ fs2, (create_vocabulary ws_tokenize [("d", ["a b"])] "v" "d" 10 true).1 =
        Except.ok fs2 ∧
      ∃ written, fsGet fs2 "v" = some written ∧
        written.take 4 = START_VOCAB :=
  create_vocabulary_reserved_first ws_tokenize [("d", ["a b"])] "v" "d"
    ["a b"] 10 true rfl rfl (by decide)

/-- C2 (code-bug evidence): `sentence_to_token_ids` ignores its
`normalize_digits` argument — the digit-normalization step of its own
docstring survives only as dead code below the `return` (source line 138).
With normalization requested, the token `a1` against the vocabulary
`{"a0": 5}` is encoded as `UNK_ID` even though its digit-normalized form
`a0` carries id 5, which is what the claim (and the docstring) require. -/
theorem sentence_to_token_ids_normalize_ignored :
    sentence_to_token_ids ws_tokenize "a1" [("a0", 5)] true = [UNK_ID] ∧
    digit_sub "a1" = "a0" ∧
    dictGet [("a0", 5)] (digit_sub "a1") = some 5 :=
  ⟨rfl, rfl, rfl⟩

/-- C3: the written vocabulary has at most `max_vocabulary_size` entries, and
whenever `START_VOCAB` followed by the frequency-sorted tokens
(`full_vocab_list`) already fits within `max_vocabulary_size`, it is written
in full with no truncation. -/
theorem create_vocabulary_size_bound (tok : String → List String) (fs : FS)
    (vocabulary_path data_path : String) (lines : List String) (maxv : Nat)
    (nd : Bool)
    (hne : fsExists fs vocabulary_path = false)
    (hdata : fsGet fs data_path = some lines) :
    ∃ fs2, (create_vocabulary tok fs vocabulary_path data_path maxv nd).1 =
        Except.ok fs2 ∧
      ∃ written, fsGet fs2 vocabulary_path = some written ∧
        written.length ≤ maxv ∧
        ((full_vocab_list tok nd lines).length ≤ maxv →
          written = full_vocab_list tok nd lines) := by
  refine ⟨fsWrite fs vocabulary_path (vocab_list tok nd lines maxv), ?_, ?_⟩
  · rw [create_vocabulary_writes tok fs vocabulary_path data_path maxv nd lines hne hdata]
  · exact ⟨vocab_list tok nd lines maxv, fsGet_fsWrite_self fs vocabulary_path _,
      vocab_list_length_le tok nd lines maxv,
      fun h => vocab_list_no_trunc tok nd lines maxv h⟩

theorem create_vocabulary_size_bound_witness :
    ∃ fs2, (create_vocabulary ws_tokenize [("d", ["a b"])] "v" "d" 5 true).1 =
        Except.ok fs2 ∧
      ∃ written, fsGet fs2 "v" = some written ∧
        written.length ≤ 5 ∧
        ((full_vocab_list ws_tokenize true ["a b"]).length ≤ 5 →
          written = full_vocab_list ws_tokenize true ["a b"]) :=
  create_vocabulary_size_bound ws_tokenize [("d", ["a b"])] "v" "d"
    ["a b"] 5 true rfl rfl

/-- C5: for every tokenizer, line and vocabulary mapping,
`sentence_to_token_ids` returns exactly one id per token (it is a total
function, so no exception is possible), each id being the vocabulary entry
of its token, with `UNK_ID = 3` substituted at the position of every token
absent from the mapping. -/
theorem sentence_to_token_ids_unk_fallback (tok : String → List String)
    (sentence : String) (vocabulary : List (String × Nat)) (nd : Bool) :
    (sentence_to_token_ids tok sentence vocabulary nd).length =
      (tok sentence).length ∧
    (∀ (i : Nat) (w : String), (tok sentence)[i]? = some w →
      (sentence_to_token_ids tok sentence vocabulary nd)[i]? =
        some ((dictGet vocabulary w).getD UNK_ID)) ∧
    (∀ (i : Nat) (w : String), (tok sentence)[i]? = some w →
      dictGet vocabulary w = none →
      (sentence_to_token_ids tok sentence vocabulary nd)[i]? = some UNK_ID) := by
  refine ⟨by simp [sentence_to_token_ids], ?_, ?_⟩
  · intro i w hw
    simp [sentence_to_token_ids, hw]
  · intro i w hw hmiss
    simp [sentence_to_token_ids, hw, hmiss]

theorem sentence_to_token_ids_unk_fallback_witness :
    (ws_tokenize "a b")[1]? = some "b" ∧ dictGet [("a", 0)] "b" = none ∧
    (sentence_to_token_ids ws_tokenize "a b" [("a", 0)] true)[1]? =
      some UNK_ID :=
  ⟨rfl, rfl,
    (sentence_to_token_ids_unk_fallback ws_tokenize "a b" [("a", 0)] true).2.2
      1 "b" rfl rfl⟩

/-- C7: when a file already exists at the output path, `create_vocabulary`
(respectively `data_to_token_ids`) reads no input file (its read trace is
empty) and performs no write at all: the file system — and in particular the
existing output file's contents — is returned unchanged. -/
theorem skip_if_output_exists (tok : String → List String) (fs : FS)
    (vocabulary_path data_path data_path2 target_path vocabulary_path2 : String)
    (maxv : Nat) (nd nd2 : Bool)
    (h1 : fsExists fs vocabulary_path = true)
    (h2 : fsExists fs target_path = true) :
    create_vocabulary tok fs vocabulary_path data_path maxv nd =
      (Except.ok fs, []) ∧
    data_to_token_ids tok fs data_path2 target_path vocabulary_path2 nd2 =
      (Except.ok fs, []) := by
  constructor
  · simp [create_vocabulary, h1]
  · simp [data_to_token_ids, h2]

theorem skip_if_output_exists_witness :
    fsExists [("v", ["x"]), ("out", ["1"])] "v" = true ∧
    fsExists [("v", ["x"]), ("out", ["1"])] "out" = true ∧
    create_vocabulary ws_tokenize [("v", ["x"]), ("out", ["1"])] "v" "d" 10 true =
      (Except.ok [("v", ["x"]), ("out", ["1"])], []) ∧
    data_to_token_ids ws_tokenize [("v", ["x"]), ("out", ["1"])] "d" "out" "v" true =
      (Except.ok [("v", ["x"]), ("out", ["1"])], []) := by
  have h := skip_if_output_exists ws_tokenize [("v", ["x"]), ("out", ["1"])]
    "v" "d" "d" "out" "v" 10 true true rfl rfl
  exact ⟨rfl, rfl, h.1, h.2⟩

/-- C10: the result of `sentence_to_token_ids` is identical whether
`normalize_digits` is true or false (the argument is never used, source
line 138), and consequently the file written by `data_to_token_ids` does not
depend on its `normalize_digits` argument either. -/
theorem normalize_digits_no_effect (tok : String → List String) :
    (∀ sentence vocabulary,
      sentence_to_token_ids tok sentence vocabulary true =
        sentence_to_token_ids tok sentence vocabulary false) ∧
    (∀ fs data_path target_path vocabulary_path,
      data_to_token_ids tok fs data_path target_path vocabulary_path true =
        data_to_token_ids tok fs data_path target_path vocabulary_path false) :=
  ⟨fun _ _ => rfl, fun _ _ _ _ => rfl⟩

/-! ## Lemmas on the forward dict built by `initialise_vocabulary` -/

theorem dictGet_dictInsert (d : List (String × Nat)) (k w : String) (v : Nat) :
    dictGet (dictInsert d k v) w = if k = w then some v else dictGet d w := by
  induction d with
  | nil => simp [dictInsert, dictGet]
  | cons p d ih =>
      obtain ⟨k2, v2⟩ := p
      simp only [dictInsert]
      by_cases hk : k2 = k
      · subst hk
        simp only [if_pos rfl, dictGet]
        by_cases hw : k2 = w <;> simp [hw]
      · rw [if_neg hk]
        simp only [dictGet, ih]
        by_cases hw : k2 = w
        · subst hw
          rw [if_pos rfl, if_pos rfl, if_neg (fun h => hk h.symm)]
        · rw [if_neg hw, if_neg hw]

theorem dictGet_foldl_dictInsert (ps : List (String × Nat))
    (d0 : List (String × Nat)) (w : String) :
    dictGet (ps.foldl (fun d p => dictInsert d p.1 p.2) d0) w =
      match lookupLast ps w with
      | some v => some v
      | none => dictGet d0 w := by
  induction ps generalizing d0 with
  | nil => simp [lookupLast]
  | cons p ps ih =>
      simp only [List.foldl_cons, lookupLast]
      rw [ih]
      cases h : lookupLast ps w with
      | some v => simp
      | none =>
          simp only [dictGet_dictInsert]
          by_cases hpw : p.1 = w
          · simp [hpw]
          · simp [hpw]

theorem lookupLast_enumPairsFrom (l : List String) (n : Nat) (w : String) :
    lookupLast (enumPairsFrom n l) w = (lastIdx l w).map (fun i => i + n) := by
  induction l generalizing n with
  | nil => rfl
  | cons a l ih =>
      simp only [enumPairsFrom, lookupLast, lastIdx, ih]
      cases h : lastIdx l w with
      | some i =>
          show some (i + (n + 1)) = some (i + 1 + n)
          congr 1
          omega
      | none =>
          by_cases haw : a = w
          · simp [haw]
          · simp [haw]

theorem dictGet_buildDict_enum (rev : List String) (w : String) :
    dictGet (buildDict (enumPairsFrom 0 rev)) w = lastIdx rev w := by
  unfold buildDict
  rw [dictGet_foldl_dictInsert, lookupLast_enumPairsFrom]
  cases lastIdx rev w with
  | some i => simp
  | none => simp [dictGet]

theorem lastIdx_getElem (l : List String) (w : String) (i : Nat)
    (h : lastIdx l w = some i) : l[i]? = some w := by
  induction l generalizing i with
  | nil => simp [lastIdx] at h
  | cons a l ih =>
      simp only [lastIdx] at h
      cases hl : lastIdx l w with
      | some j =>
          rw [hl] at h
          injection h with h
          subst h
          rw [List.getElem?_cons_succ]
          exact ih j hl
      | none =>
          rw [hl] at h
          by_cases haw : a = w
          · rw [if_pos haw] at h
            injection h with h
            subst h
            simp [haw]
          · rw [if_neg haw] at h
            cases h

theorem lastIdx_isSome_iff (l : List String) (w : String) :
    (lastIdx l w).isSome = true ↔ w ∈ l := by
  induction l with
  | nil => simp [lastIdx]
  | cons a l ih =>
      simp only [lastIdx, List.mem_cons]
      cases hl : lastIdx l w with
      | some j =>
          have hm : w ∈ l := ih.mp (by simp [hl])
          simp [hm]
      | none =>
          have hnl : ¬ w ∈ l := by
            intro hm
            have hcontra := ih.mpr hm
            rw [hl] at hcontra
            simp at hcontra
          by_cases haw : a = w
          · simp [haw]
          · simp [haw, hnl]
            exact fun h => haw h.symm

theorem lastIdx_greatest (l : List String) (w : String) (i : Nat)
    (h : lastIdx l w = some i) : ∀ j, i < j → l[j]? ≠ some w := by
  induction l generalizing i with
  | nil => intro j hj; simp
  | cons a l ih =>
      simp only [lastIdx] at h
      cases hl : lastIdx l w with
      | some k =>
          rw [hl] at h
          injection h with h
          subst h
          intro j hj hcontra
          cases j with
          | zero => omega
          | succ j2 =>
              rw [List.getElem?_cons_succ] at hcontra
              exact ih k hl j2 (by omega) hcontra
      | none =>
          rw [hl] at h
          by_cases haw : a = w
          · rw [if_pos haw] at h
            injection h with h
            subst h
            intro j hj hcontra
            cases j with
            | zero => omega
            | succ j2 =>
                rw [List.getElem?_cons_succ] at hcontra
                have hm : w ∈ l := List.getElem?_mem hcontra
                have := (lastIdx_isSome_iff l w).mpr hm
                rw [hl] at this
                simp at this
          · rw [if_neg haw] at h
            cases h

/-- C4: for every tokenizer, vocabulary file whose stripped token lines are
pairwise distinct and contain every token of the tokenized line, the forward
map of `initialise_vocabulary` resolves every token of the line (no `UNK_ID`
fallback is used for any token, none being out of vocabulary), and mapping
each produced id back through the reverse list reproduces the original token
sequence exactly. -/
theorem encode_decode_roundtrip (tok : String → List String) (fs : FS)
    (vocabulary_path : String) (fileLines : List String) (sentence : String)
    (nd : Bool)
    (hv : fsGet fs vocabulary_path = some fileLines)
    (hnodup : (fileLines.map py_strip).Nodup)
    (hall : ∀ w ∈ tok sentence, w ∈ fileLines.map py_strip) :
    ∃ vocab rev_vocab,
      initialise_vocabulary fs vocabulary_path = Except.ok (vocab, rev_vocab) ∧
      (∀ w ∈ tok sentence, dictGet vocab w ≠ none) ∧
      (sentence_to_token_ids tok sentence vocab nd).map
          (fun i => rev_vocab[i]?) =
        (tok sentence).map some := by
  refine ⟨buildDict (enumPairsFrom 0 (fileLines.map py_strip)),
    fileLines.map py_strip, by simp [initialise_vocabulary, hv], ?_, ?_⟩
  · intro w hw
    rw [dictGet_buildDict_enum]
    have hs := (lastIdx_isSome_iff (fileLines.map py_strip) w).mpr (hall w hw)
    cases h : lastIdx (fileLines.map py_strip) w with
    | some m => simp
    | none => rw [h] at hs; simp at hs
  · unfold sentence_to_token_ids
    rw [List.map_map]
    apply List.map_congr_left
    intro w hw
    have hs := (lastIdx_isSome_iff (fileLines.map py_strip) w).mpr (hall w hw)
    cases h : lastIdx (fileLines.map py_strip) w with
    | some m =>
        simp only [Function.comp_apply, dictGet_buildDict_enum, h,
          Option.getD_some]
        exact lastIdx_getElem _ _ _ h
    | none => rw [h] at hs; simp at hs

theorem encode_decode_roundtrip_witness :
    ∃ vocab rev_vocab,
      initialise_vocabulary [("v", ["a", "b"])] "v" =
        Except.ok (vocab, rev_vocab) ∧
      (∀ w ∈ ws_tokenize "b a", dictGet vocab w ≠ none) ∧
      (sentence_to_token_ids ws_tokenize "b a" vocab true).map
          (fun i => rev_vocab[i]?) =
        (ws_tokenize "b a").map some :=
  encode_decode_roundtrip ws_tokenize [("v", ["a", "b"])] "v" ["a", "b"]
    "b a" true rfl (by decide) (by decide)

/-- C8: for every vocabulary file in which a (stripped) token line is
duplicated, the forward map of `initialise_vocabulary` assigns to the
duplicated token the line position of its last occurrence, while the reverse
list retains every occurrence at its own line position. -/
theorem initialise_vocabulary_duplicates (fs : FS) (vocabulary_path : String)
    (fileLines : List String) (t : String) (i j : Nat)
    (hv : fsGet fs vocabulary_path = some fileLines)
    (hij : i < j)
    (hi : (fileLines.map py_strip)[i]? = some t)
    (hj : (fileLines.map py_strip)[j]? = some t) :
    ∃ vocab rev_vocab,
      initialise_vocabulary fs vocabulary_path = Except.ok (vocab, rev_vocab) ∧
      (∀ k : Nat, rev_vocab[k]? = (fileLines[k]?).map py_strip) ∧
      ∃ m, dictGet vocab t = some m ∧ j ≤ m ∧ rev_vocab[m]? = some t ∧
        ∀ k, m < k → rev_vocab[k]? ≠ some t := by
  refine ⟨buildDict (enumPairsFrom 0 (fileLines.map py_strip)),
    fileLines.map py_strip, by simp [initialise_vocabulary, hv],
    fun k => List.getElem?_map .., ?_⟩
  have hs := (lastIdx_isSome_iff (fileLines.map py_strip) t).mpr
    (List.getElem?_mem hj)
  cases hm : lastIdx (fileLines.map py_strip) t with
  | none => rw [hm] at hs; simp at hs
  | some m =>
      refine ⟨m, by rw [dictGet_buildDict_enum, hm], ?_,
        lastIdx_getElem _ _ _ hm, lastIdx_greatest _ _ _ hm⟩
      by_contra hlt
      exact lastIdx_greatest _ _ _ hm j (by omega) hj

theorem initialise_vocabulary_duplicates_witness :
    ∃ vocab rev_vocab,
      initialise_vocabulary [("v", ["dog", "cat", "dog"])] "v" =
        Except.ok (vocab, rev_vocab) ∧
      (∀ k : Nat, rev_vocab[k]? =
        ((["dog", "cat", "dog"] : List String)[k]?).map py_strip) ∧
      ∃ m, dictGet vocab "dog" = some m ∧ 2 ≤ m ∧ rev_vocab[m]? = some "dog" ∧
        ∀ k, m < k → rev_vocab[k]? ≠ some "dog" :=
  initialise_vocabulary_duplicates [("v", ["dog", "cat", "dog"])] "v"
    ["dog", "cat", "dog"] "dog" 0 2 rfl (by decide) rfl rfl

/-! ## Lemmas on the frequency count and the stable descending sort -/

theorem dictGet_isSome_iff_mem (d : List (String × Nat)) (w : String) :
    (dictGet d w).isSome = true ↔ w ∈ vocabKeys d := by
  induction d with
  | nil => simp [dictGet, vocabKeys]
  | cons p d ih =>
      obtain ⟨k, v⟩ := p
      simp only [dictGet, vocabKeys, List.map_cons, List.mem_cons]
      by_cases hk : k = w
      · simp [hk]
      · rw [if_neg hk, ih]
        constructor
        · exact fun h => Or.inr h
        · rintro (h | h)
          · exact absurd h.symm hk
          · exact h

theorem vocabKeys_dictInsert (d : List (String × Nat)) (k : String) (v : Nat) :
    vocabKeys (dictInsert d k v) =
      if (dictGet d k).isSome then vocabKeys d else vocabKeys d ++ [k] := by
  induction d with
  | nil => simp [dictInsert, dictGet, vocabKeys]
  | cons p d ih =>
      obtain ⟨k2, v2⟩ := p
      simp only [dictInsert, dictGet]
      by_cases hk : k2 = k
      · simp [hk, vocabKeys]
      · simp only [if_neg hk]
        simp only [vocabKeys, List.map_cons] at *
        rw [ih]
        by_cases hs : (dictGet d k).isSome <;> simp [hs]

theorem vocabKeys_bumpCount (d : List (String × Nat)) (w : String) :
    vocabKeys (bumpCount d w) =
      if w ∈ vocabKeys d then vocabKeys d else vocabKeys d ++ [w] := by
  unfold bumpCount
  cases h : dictGet d w with
  | some c =>
      have hm : w ∈ vocabKeys d := (dictGet_isSome_iff_mem d w).mp (by simp [h])
      rw [vocabKeys_dictInsert, if_pos (by simp [h]), if_pos hm]
  | none =>
      have hm : ¬ w ∈ vocabKeys d := fun hmem => by
        have := (dictGet_isSome_iff_mem d w).mpr hmem
        rw [h] at this
        simp at this
      rw [vocabKeys_dictInsert, if_neg (by simp [h]), if_neg hm]

theorem countVocab_eq_foldl_tokenStream (tok : String → List String) (nd : Bool)
    (lines : List String) :
    countVocab tok nd lines = (tokenStream tok nd lines).foldl bumpCount [] := by
  suffices h : ∀ d, lines.foldl
      (fun d line => (tok line).foldl
        (fun d w => bumpCount d (if nd then digit_sub w else w)) d) d =
      (tokenStream tok nd lines).foldl bumpCount d by
    exact h []
  induction lines with
  | nil => intro d; rfl
  | cons line ls ih =>
      intro d
      simp only [tokenStream, List.flatMap_cons, List.foldl_cons,
        List.foldl_append, List.foldl_map]
      have ih2 := ih
      simp only [tokenStream] at ih2
      exact ih2 _

theorem vocabKeys_foldl_bumpCount (ws : List String) (d : List (String × Nat)) :
    vocabKeys (ws.foldl bumpCount d) =
      ws.foldl (fun acc w => if w ∈ acc then acc else acc ++ [w])
        (vocabKeys d) := by
  induction ws generalizing d with
  | nil => rfl
  | cons w ws ih =>
      simp only [List.foldl_cons]
      rw [ih, vocabKeys_bumpCount]

theorem filter_orderedInsertDesc_eq_key (get : String → Nat) (f : Nat)
    (x : String) (l : List String) (hx : get x = f) :
    (orderedInsertDesc get x l).filter (fun w => get w == f) =
      x :: l.filter (fun w => get w == f) := by
  induction l with
  | nil => simp [orderedInsertDesc, hx]
  | cons b l ih =>
      unfold orderedInsertDesc
      by_cases hb : get b ≤ get x
      · rw [if_pos hb]
        simp [List.filter_cons, hx]
      · rw [if_neg hb]
        have hbf : ¬ (get b = f) := by omega
        simp [List.filter_cons, hbf, ih]

theorem filter_orderedInsertDesc_ne_key (get : String → Nat) (f : Nat)
    (x : String) (l : List String) (hx : ¬ get x = f) :
    (orderedInsertDesc get x l).filter (fun w => get w == f) =
      l.filter (fun w => get w == f) := by
  induction l with
  | nil => simp [orderedInsertDesc, hx]
  | cons b l ih =>
      unfold orderedInsertDesc
      by_cases hb : get b ≤ get x
      · rw [if_pos hb]
        simp [List.filter_cons, hx]
      · rw [if_neg hb]
        simp [List.filter_cons, ih]

theorem filter_sortedDesc (get : String → Nat) (f : Nat) (l : List String) :
    (sortedDesc get l).filter (fun w => get w == f) =
      l.filter (fun w => get w == f) := by
  induction l with
  | nil => rfl
  | cons b l ih =>
      unfold sortedDesc
      by_cases hb : get b = f
      · rw [filter_orderedInsertDesc_eq_key get f b _ hb, ih]
        simp [List.filter_cons, hb]
      · rw [filter_orderedInsertDesc_ne_key get f b _ hb, ih]
        simp [List.filter_cons, hb]

/-- C9: the vocabulary produced by `create_vocabulary` is a deterministic
function of the file contents (the embedding is a pure function), its dict
iteration order (`vocabKeys`) lists tokens in order of first occurrence in
the corpus scan, the stable descending sort keeps every frequency class in
exactly that order, the ranked tail of the produced list is that sorted
sequence, and the written (possibly truncated) list is a prefix of it, so
equal-frequency tokens appear in first-occurrence order in the output. -/
theorem vocab_ties_first_occurrence (tok : String → List String) (nd : Bool)
    (lines : List String) (maxv : Nat) (f : Nat) :
    vocabKeys (countVocab tok nd lines) =
      firstOccurrences (tokenStream tok nd lines) ∧
    (sortedDesc (vocabGetD (countVocab tok nd lines))
          (vocabKeys (countVocab tok nd lines))).filter
        (fun w => vocabGetD (countVocab tok nd lines) w == f) =
      (vocabKeys (countVocab tok nd lines)).filter
        (fun w => vocabGetD (countVocab tok nd lines) w == f) ∧
    (full_vocab_list tok nd lines).drop 4 =
      sortedDesc (vocabGetD (countVocab tok nd lines))
        (vocabKeys (countVocab tok nd lines)) ∧
    (vocab_list tok nd lines maxv).IsPrefix (full_vocab_list tok nd lines) := by
  refine ⟨?_, filter_sortedDesc _ _ _, rfl, ?_⟩
  · rw [countVocab_eq_foldl_tokenStream, vocabKeys_foldl_bumpCount]
    rfl
  · unfold vocab_list
    split
    · exact List.take_prefix _ _
    · exact List.prefix_refl _

/-! ## Lemmas for the corpus pipeline -/

theorem fsGet_fsWrite_ne (fs : FS) (p q : String) (c : List String)
    (h : p ≠ q) : fsGet (fsWrite fs p c) q = fsGet fs q := by
  simp [fsWrite, fsGet, h]

theorem fsExists_fsWrite_ne (fs : FS) (p q : String) (c : List String)
    (h : p ≠ q) : fsExists (fsWrite fs p c) q = fsExists fs q := by
  simp [fsExists, fsGet_fsWrite_ne fs p q c h]

theorem fsExists_fsWrite_self (fs : FS) (p : String) (c : List String) :
    fsExists (fsWrite fs p c) p = true := by
  simp [fsExists, fsGet_fsWrite_self]

theorem data_to_token_ids_writes (tok : String → List String) (fs : FS)
    (data_path target_path vocabulary_path : String) (nd : Bool)
    (fileLines lines : List String)
    (hne : fsExists fs target_path = false)
    (hv : fsGet fs vocabulary_path = some fileLines)
    (hdata : fsGet fs data_path = some lines) :
    data_to_token_ids tok fs data_path target_path vocabulary_path nd =
      (Except.ok (fsWrite fs target_path (lines.map (fun line =>
        String.intercalate " " ((sentence_to_token_ids tok line
          (buildDict (enumPairsFrom 0 (fileLines.map py_strip))) nd).map
          toString)))),
       [vocabulary_path, data_path]) := by
  simp [data_to_token_ids, hne, initialise_vocabulary, hv, hdata]

theorem data_to_token_ids_skips (tok : String → List String) (fs : FS)
    (data_path target_path vocabulary_path : String) (nd : Bool)
    (h : fsExists fs target_path = true) :
    data_to_token_ids tok fs data_path target_path vocabulary_path nd =
      (Except.ok fs, []) := by
  simp [data_to_token_ids, h]

theorem string_data_append (s t : String) : (s ++ t).data = s.data ++ t.data :=
  String.data_append ..

theorem string_append_right_inj (s t u : String) (h : s ++ t = s ++ u) :
    t = u := by
  have hd : s.data ++ t.data = s.data ++ u.data := by
    rw [← string_data_append, ← string_data_append, h]
  exact String.ext (List.append_cancel_left hd)

/-- C6 counterexample: the four corpus paths derived by `prepare_wmt_data`
are not pairwise distinct — at `data_dir = "data"` the development path of
each language equals the corresponding training path, because `dev_path` is
also computed by `get_train_path` (source lines 46-49 and 186-187). -/
theorem prepare_wmt_paths_not_distinct :
    (prepare_wmt_corpus_paths "data").2.2.1 = (prepare_wmt_corpus_paths "data").1 ∧
    (prepare_wmt_corpus_paths "data").2.2.2 = (prepare_wmt_corpus_paths "data").2.1 ∧
    (prepare_wmt_corpus_paths "data").1 = "data/train.en" ∧
    (prepare_wmt_corpus_paths "data").2.2.1 = "data/train.en" :=
  ⟨rfl, rfl, rfl, rfl⟩

theorem except_bind_ok {α β : Type} (a : α) (f : α → Except String β) :
    ((Except.ok a : Except String α) >>= f) = f a := rfl

/-- C6 (amended): `prepare_wmt_data` derives four corpus file paths with the
fixed suffixes `.en`/`.fr`, but the development path of each language
coincides with its training path (both are derived from `data_dir/train`),
so only two corpus files are distinct; given that the two corpus files exist
and none of the derived output paths pre-exist (and the derived paths do not
collide), the pipeline succeeds and produces an id-encoded output file at
each of the two distinct encoded paths, each serving both the train and the
dev role in the returned tuple. -/
theorem prepare_wmt_amended (tok : String → List String) (fs : FS)
    (data_dir : String) (esz fsz : Nat) (FT TT TV FV TI FI : String)
    (enLines frLines : List String)
    (hFT : FT = get_train_path data_dir ++ ".en")
    (hTT : TT = get_train_path data_dir ++ ".fr")
    (hTV : TV = os_path_join data_dir ("vocab" ++ toString fsz ++ ".to"))
    (hFV : FV = os_path_join data_dir ("vocab" ++ toString esz ++ ".from"))
    (hTI : TI = TT ++ ".ids" ++ toString fsz)
    (hFI : FI = FT ++ ".ids" ++ toString esz)
    (hen : fsGet fs FT = some enLines)
    (hfr : fsGet fs TT = some frLines)
    (hTVx : fsExists fs TV = false) (hFVx : fsExists fs FV = false)
    (hTIx : fsExists fs TI = false) (hFIx : fsExists fs FI = false)
    (d1 : TV ≠ FV) (d2 : TV ≠ FT) (d3 : FV ≠ TI) (d4 : TV ≠ TI)
    (d5 : FV ≠ TT) (d6 : TV ≠ TT) (d7 : TI ≠ FI) (d8 : FV ≠ FI)
    (d9 : TV ≠ FI) (d10 : TI ≠ FT) (d11 : FV ≠ FT) :
    (prepare_wmt_corpus_paths data_dir).2.2.1 = (prepare_wmt_corpus_paths data_dir).1 ∧
    (prepare_wmt_corpus_paths data_dir).2.2.2 = (prepare_wmt_corpus_paths data_dir).2.1 ∧
    FT ≠ TT ∧
    ∃ fs6, prepare_wmt_data tok fs data_dir esz fsz =
        Except.ok (fs6, (FI, TI, FI, TI, FV, TV)) ∧
      (fsGet fs6 FI).isSome = true ∧ (fsGet fs6 TI).isSome = true := by
  refine ⟨rfl, rfl, ?_, ?_⟩
  · rw [hFT, hTT]
    intro h
    exact absurd (string_append_right_inj _ _ _ h) (by decide)
  · have e1 : prepare_wmt_data tok fs data_dir esz fsz =
        prepare_data tok fs data_dir FT TT FT TT esz fsz := by
      rw [hFT, hTT]
      rfl
    rw [e1]
    simp only [prepare_data]
    rw [← hTV, ← hFV, ← hTI, ← hFI]
    rw [create_vocabulary_writes tok fs TV TT fsz true frLines hTVx hfr]
    dsimp only []
    rw [except_bind_ok]
    set L1 := vocab_list tok true frLines fsz with hL1
    set fs1 := fsWrite fs TV L1 with hfs1
    have hne2 : fsExists fs1 FV = false := by
      rw [hfs1, fsExists_fsWrite_ne _ _ _ _ d1]
      exact hFVx
    have hda2 : fsGet fs1 FT = some enLines := by
      rw [hfs1, fsGet_fsWrite_ne _ _ _ _ d2]
      exact hen
    rw [create_vocabulary_writes tok fs1 FV FT esz true enLines hne2 hda2]
    dsimp only []
    rw [except_bind_ok]
    set L2 := vocab_list tok true enLines esz with hL2
    set fs2 := fsWrite fs1 FV L2 with hfs2
    have hv3 : fsGet fs2 TV = some L1 := by
      rw [hfs2, fsGet_fsWrite_ne _ _ _ _ (Ne.symm d1), hfs1, fsGet_fsWrite_self]
    have hne3 : fsExists fs2 TI = false := by
      rw [hfs2, fsExists_fsWrite_ne _ _ _ _ d3, hfs1, fsExists_fsWrite_ne _ _ _ _ d4]
      exact hTIx
    have hda3 : fsGet fs2 TT = some frLines := by
      rw [hfs2, fsGet_fsWrite_ne _ _ _ _ d5, hfs1, fsGet_fsWrite_ne _ _ _ _ d6]
      exact hfr
    rw [data_to_token_ids_writes tok fs2 TT TI TV true L1 frLines hne3 hv3 hda3]
    dsimp only []
    rw [except_bind_ok]
    set E1 := frLines.map (fun line => String.intercalate " "
      ((sentence_to_token_ids tok line
        (buildDict (enumPairsFrom 0 (L1.map py_strip))) true).map toString)) with hE1
    set fs3 := fsWrite fs2 TI E1 with hfs3
    have hv4 : fsGet fs3 FV = some L2 := by
      rw [hfs3, fsGet_fsWrite_ne _ _ _ _ (Ne.symm d3), hfs2, fsGet_fsWrite_self]
    have hne4 : fsExists fs3 FI = false := by
      rw [hfs3, fsExists_fsWrite_ne _ _ _ _ d7, hfs2, fsExists_fsWrite_ne _ _ _ _ d8,
        hfs1, fsExists_fsWrite_ne _ _ _ _ d9]
      exact hFIx
    have hda4 : fsGet fs3 FT = some enLines := by
      rw [hfs3, fsGet_fsWrite_ne _ _ _ _ d10, hfs2, fsGet_fsWrite_ne _ _ _ _ d11,
        hfs1, fsGet_fsWrite_ne _ _ _ _ d2]
      exact hen
    rw [data_to_token_ids_writes tok fs3 FT FI FV true L2 enLines hne4 hv4 hda4]
    dsimp only []
    rw [except_bind_ok]
    set E2 := enLines.map (fun line => String.intercalate " "
      ((sentence_to_token_ids tok line
        (buildDict (enumPairsFrom 0 (L2.map py_strip))) true).map toString)) with hE2
    set fs4 := fsWrite fs3 FI E2 with hfs4
    have hex5 : fsExists fs4 TI = true := by
      rw [hfs4, fsExists_fsWrite_ne _ _ _ _ (Ne.symm d7), hfs3, fsExists_fsWrite_self]
    rw [data_to_token_ids_skips tok fs4 TT TI TV true hex5]
    dsimp only []
    rw [except_bind_ok]
    have hex6 : fsExists fs4 FI = true := by
      rw [hfs4, fsExists_fsWrite_self]
    rw [data_to_token_ids_skips tok fs4 FT FI FV true hex6]
    dsimp only []
    rw [except_bind_ok]
    refine ⟨fs4, rfl, ?_, ?_⟩
    · rw [hfs4, fsGet_fsWrite_self]
      rfl
    · rw [hfs4, fsGet_fsWrite_ne _ _ _ _ (Ne.symm d7), hfs3, fsGet_fsWrite_self]
      rfl

theorem prepare_wmt_amended_witness :
    (prepare_wmt_corpus_paths "data").2.2.1 = (prepare_wmt_corpus_paths "data").1 ∧
    (prepare_wmt_corpus_paths "data").2.2.2 = (prepare_wmt_corpus_paths "data").2.1 ∧
    "data/train.en" ≠ "data/train.fr" ∧
    ∃ fs6, prepare_wmt_data ws_tokenize
        [("data/train.en", ["a b"]), ("data/train.fr", ["c d"])] "data" 10 10 =
        Except.ok (fs6, ("data/train.en.ids10", "data/train.fr.ids10",
          "data/train.en.ids10", "data/train.fr.ids10",
          "data/vocab10.from", "data/vocab10.to")) ∧
      (fsGet fs6 "data/train.en.ids10").isSome = true ∧
      (fsGet fs6 "data/train.fr.ids10").isSome = true :=
  prepare_wmt_amended ws_tokenize
    [("data/train.en", ["a b"]), ("data/train.fr", ["c d"])] "data" 10 10
    "data/train.en" "data/train.fr" "data/vocab10.to" "data/vocab10.from"
    "data/train.fr.ids10" "data/train.en.ids10" ["a b"] ["c d"]
    rfl rfl rfl rfl rfl rfl rfl rfl rfl rfl rfl rfl
    (by decide) (by decide) (by decide) (by decide) (by decide) (by decide)
    (by decide) (by decide) (by decide) (by decide) (by decide)

end DataUtils
